import Mathlib

/-!
Shallow embedding of the boot image format engine of DualBootPatcher
(`libmbbootimg`): the Loki format reader (`loki_reader.cpp`) and the
Android/Bump format writer (`android_writer.cpp`).

Files are modelled as lists of bytes (`List Nat`, each element < 256).
Machine integers are `Nat` with explicit `% 2^32` where 32-bit overflow
matters.  Fallible operations return `Except LokiError` /
`Except AndroidError` or an explicit result-code type mirroring the
source's `RET_OK`/`RET_FAILED`/`RET_FATAL` convention.
-/

/-- Little-endian decoding of a list of bytes into a natural number. -/
def leVal : List Nat → Nat
  | [] => 0
  | b :: rest => b + 256 * leVal rest

/-- Little-endian 4-byte encoding of a 32-bit value (truncating). -/
def le32Bytes (n : Nat) : List Nat :=
  [n % 256, n / 256 % 256, n / 65536 % 256, n / 16777216 % 256]

/-- Read exactly `n` bytes at offset `off`; `none` on EOF (mirrors
`file_read_fully` returning a short count). -/
def readBytes (file : List Nat) (off n : Nat) : Option (List Nat) :=
  if off + n ≤ file.length then some ((file.drop off).take n) else none

/-- Read a 32-bit little-endian value at `off` (mirrors a 4-byte
`file_read_fully` followed by `mb_le32toh`). -/
def readLE32 (file : List Nat) (off : Nat) : Option Nat :=
  (readBytes file off 4).map leVal

/-- Copy a byte list into a fixed-size field of `n` bytes, zero-padding on
the right (mirrors a zeroed C struct field written with `memcpy`/`strncpy`). -/
def fixField (n : Nat) (l : List Nat) : List Nat :=
  l.take n ++ List.replicate (n - l.length) 0

/-- All offsets at which `pat` occurs in `file`, in increasing order.  This
models the forward byte-pattern search performed by `file_search`, which
reports each match offset to its callback in increasing order. -/
def occurrences (file pat : List Nat) : List Nat :=
  (List.range file.length).filter (fun o => decide ((file.drop o).take pat.length = pat))

/-- Error kinds of the Loki error category (`loki_error.h`), plus a generic
`IoError` standing for an error of the underlying stream. -/
inductive LokiError
  | LokiHeaderTooSmall
  | InvalidLokiMagic
  | ShellcodeNotFound
  | UnexpectedEndOfFile
  | InvalidKernelAddress
  | PageSizeCannotBeZero
  | NoRamdiskGzipHeaderFound
  | RamdiskOffsetGreaterThanAbootOffset
  | FailedToDetermineRamdiskSize
  | UnexpectedFileTruncation
  | IoError
deriving DecidableEq, Repr

/-- Error kinds of the Android error category (`android_error.h`). -/
inductive AndroidError
  | HeaderNotFound
  | HeaderOutOfBounds
  | HeaderSetFieldsFailed
  | MissingPageSize
  | InvalidPageSize
  | BoardNameTooLong
  | KernelCmdlineTooLong
  | Sha1InitError
  | Sha1UpdateError
deriving DecidableEq, Repr

/-- The parsed on-disk Android boot image header (`AndroidHeader`), with
integral fields in host byte order.  All integral fields are 32-bit. -/
structure AndroidHeader where
  kernel_size : Nat := 0
  kernel_addr : Nat := 0
  ramdisk_size : Nat := 0
  ramdisk_addr : Nat := 0
  second_size : Nat := 0
  second_addr : Nat := 0
  tags_addr : Nat := 0
  page_size : Nat := 0
  dt_size : Nat := 0
  unused : Nat := 0
  name : List Nat := []
  cmdline : List Nat := []
  id : List Nat := []
  extra_cmdline : List Nat := []
deriving DecidableEq, Repr

/-- The secondary Loki header found at offset 0x400 (`LokiHeader`), with
integral fields in host byte order. -/
structure LokiHeader where
  build : Nat := 0
  orig_kernel_size : Nat := 0
  orig_ramdisk_size : Nat := 0
  ramdisk_addr : Nat := 0
deriving DecidableEq, Repr

/-- Typed segment kinds (`ENTRY_TYPE_*`). -/
inductive EntryType
  | Kernel
  | Ramdisk
  | Secondboot
  | DeviceTree
deriving DecidableEq, Repr

/-- A segment slot installed in the segment reader (`SegmentReaderEntry`). -/
structure SegmentReaderEntry where
  type : EntryType
  offset : Nat
  size : Nat
  can_truncate : Bool
deriving DecidableEq, Repr

/-- Logical header values produced by the Loki reader (the `Header` fields
the reader sets via `set_*`). -/
structure HeaderOut where
  board_name : List Nat := []
  kernel_cmdline : List Nat := []
  page_size : Nat := 0
  kernel_address : Nat := 0
  ramdisk_address : Nat := 0
  secondboot_address : Nat := 0
  kernel_tags_address : Nat := 0
deriving DecidableEq, Repr

/-- Modelled from the spec: `is_lg_ramdisk_address` lives in a header file
not included under `src/`; the spec defines it as
`ramdisk_addr == 0x88f02000 || ramdisk_addr == 0x8ef02000`. -/
def is_lg_ramdisk_address (addr : Nat) : Bool :=
  addr == 0x88f02000 || addr == 0x8ef02000

/-- Modelled from the spec: the `LOKI_SHELLCODE` constant is defined in a
header file not included under `src/`.  The spec describes it only as a
known ~65-byte sequence whose trailing bytes are rewritten by the Loki
tool; we model it as a fixed 65-byte sequence with pairwise distinct
nonzero bytes.  The claims settled against it depend only on its length
and on where it occurs in a file, never on its particular byte values. -/
def LOKI_SHELLCODE : List Nat := (List.range 65).map (· + 1)

/-- Sizeof the shellcode constant (`LOKI_SHELLCODE_SIZE`). -/
def LOKI_SHELLCODE_SIZE : Nat := LOKI_SHELLCODE.length

/-- Reconstruct the original ramdisk load address
(`LokiFormatReader::find_ramdisk_address`).  When the Loki header records a
nonzero `ramdisk_addr`, the image was patched by a newer Loki and the real
address sits inside the injected shellcode: the code calls
`file_search(file, -1, -1, 0, LOKI_SHELLCODE, LOKI_SHELLCODE_SIZE - 9, 1,
result_cb, &offset)` — note `max_matches = 1`, so the callback (which
overwrites `offset`, initialized to 0) runs for at most the first match —
then treats `offset == 0` as `ShellcodeNotFound`, and otherwise reads 4
little-endian bytes at `offset + LOKI_SHELLCODE_SIZE - 5`.  When the Loki
`ramdisk_addr` is zero it falls back to the jflte default
`hdr.kernel_addr + 0x01ff8000`, rejecting 32-bit overflow. -/
def find_ramdisk_address (file : List Nat) (hdr : AndroidHeader) (loki_hdr : LokiHeader)
    (sc : List Nat) : Except LokiError Nat :=
  if loki_hdr.ramdisk_addr ≠ 0 then
    let offset := ((occurrences file (sc.take (sc.length - 9))).take 1).foldl
        (fun _ o => o) 0
    if offset = 0 then
      .error .ShellcodeNotFound
    else
      match readLE32 file (offset + (sc.length - 5)) with
      | some v => .ok v
      | none => .error .UnexpectedEndOfFile
  else
    if hdr.kernel_addr > 4294967295 - 0x01ff8000 then
      .error .InvalidKernelAddress
    else
      .ok (hdr.kernel_addr + 0x01ff8000)

/-- The ramdisk address computed the way the specification words it: take
the offset of the LAST match of the 9-byte-trimmed shellcode anywhere in
the file, add `shellcode_size - 5`, and read 4 little-endian bytes there.
This definition follows the spec's words and exists to be compared with
`find_ramdisk_address`, which is translated from the source. -/
def spec_ramdisk_address_last_match (file : List Nat) (sc : List Nat) : Option Nat :=
  (occurrences file (sc.take (sc.length - 9))).getLast?.bind
    (fun o => readLE32 file (o + (sc.length - 5)))

/-- Read the kernel size from the ARM Linux kernel image header at
`kernel_offset + 0x2c` (`LokiFormatReader::find_linux_kernel_size`). -/
def find_linux_kernel_size (file : List Nat) (kernel_offset : Nat) :
    Except LokiError Nat :=
  match readLE32 file (kernel_offset + 0x2c) with
  | some v => .ok v
  | none => .error .UnexpectedEndOfFile

/-- The 3-byte gzip deflate magic searched for by the old-style ramdisk
scan. -/
def gzip_deflate_magic : List Nat := [0x1f, 0x8b, 0x08]

/-- Callback state of the old-style gzip scan (`SearchResult`). -/
structure GzSearchResult where
  flag0_offset : Option Nat := none
  flag8_offset : Option Nat := none
deriving DecidableEq, Repr

/-- One run of the gzip search callback over the list of match offsets
(`result_cb` in `LokiFormatReader::find_gzip_offset_old`): stop early once
both flavors were found; stop on EOF when reading the flags byte at
`offset + 3`; record the first match with flags `0x00` and the first with
flags `0x08`. -/
def gzip_scan (file : List Nat) : List Nat → GzSearchResult → GzSearchResult
  | [], r => r
  | o :: rest, r =>
    if r.flag0_offset.isSome ∧ r.flag8_offset.isSome then
      r
    else
      match file[o + 3]? with
      | none => r
      | some flags =>
        if r.flag0_offset.isNone ∧ flags = 0x00 then
          gzip_scan file rest { r with flag0_offset := some o }
        else if r.flag8_offset.isNone ∧ flags = 0x08 then
          gzip_scan file rest { r with flag8_offset := some o }
        else
          gzip_scan file rest r

/-- Match offsets of `pat` in `file` at or after `start` (the search is
started at `start_offset` and runs to EOF with unbounded matches). -/
def matchesFrom (file : List Nat) (start : Nat) (pat : List Nat) : List Nat :=
  (occurrences file pat).filter (fun o => decide (start ≤ o))

/-- Find the gzip ramdisk offset in an old-style Loki image
(`LokiFormatReader::find_gzip_offset_old`): scan matches of the gzip
deflate magic from `start_offset`, then prefer the recorded flags-`0x08`
match over the flags-`0x00` match. -/
def find_gzip_offset_old (file : List Nat) (start_offset : Nat) :
    Except LokiError Nat :=
  let r := gzip_scan file (matchesFrom file start_offset gzip_deflate_magic) {}
  match r.flag8_offset with
  | some o => .ok o
  | none =>
    match r.flag0_offset with
    | some o => .ok o
    | none => .error .NoRamdiskGzipHeaderFound

/-- The first match at or after `start` whose flags byte (the byte at
offset + 3) equals `flag`.  This is the specification's description of what the gzip
scan records. -/
def firstMatchWithFlag (file : List Nat) (start : Nat) (flag : Nat) : Option Nat :=
  ((matchesFrom file start gzip_deflate_magic).filter
    (fun o => file[o + 3]? == some flag)).head?

/-- Guess the ramdisk size of an old-style Loki image
(`LokiFormatReader::find_ramdisk_size_old`): the ramdisk runs from the gzip
header to the copy of aboot stored in the last `page_size` (LG) or `0x200`
bytes of the file.  `seek(-aboot_size, SEEK_END)` fails when the file is
shorter than `aboot_size`; the success value is the `uint32_t` cast of
`aboot_offset - ramdisk_offset`.  The trailing-zero stripping variant is
compiled out (`#if 1`), so no stripping is performed.  The local
`aboot_size` (an `int32_t` holding `page_size` for LG ramdisk addresses and
`0x200` otherwise) is factored out as `abootReserved`. -/
def abootReserved (hdr : AndroidHeader) : Nat :=
  if is_lg_ramdisk_address hdr.ramdisk_addr then hdr.page_size else 0x200

/-- Guess the ramdisk size of an old-style Loki image
(`LokiFormatReader::find_ramdisk_size_old`), body (see `abootReserved`). -/
def find_ramdisk_size_old (fileSize : Nat) (hdr : AndroidHeader)
    (ramdisk_offset : Nat) : Except LokiError Nat :=
  if fileSize < abootReserved hdr then
    .error .IoError
  else if ramdisk_offset > fileSize - abootReserved hdr then
    .error .RamdiskOffsetGreaterThanAbootOffset
  else
    .ok ((fileSize - abootReserved hdr - ramdisk_offset) % 4294967296)

/-- Padding needed to bring `pos` up to the next multiple of `page_size`
(`align_page_size` from `align_p.h`, modelled from the spec's
`align_up(size, page_size) - size`). -/
def align_page_size (pos page_size : Nat) : Nat :=
  (page_size - pos % page_size) % page_size

/-- Take a NUL-terminated C string out of a fixed-size header field
(the `strncpy` + forced terminator dance in the reader). -/
def cString (n : Nat) (field : List Nat) : List Nat :=
  (field.take n).takeWhile (· ≠ 0)

/-- Read the header of an old-style Loki image
(`LokiFormatReader::read_header_old`).  Returns the logical header plus
`(kernel_offset, kernel_size, ramdisk_offset, ramdisk_size)`. -/
def read_header_old (file : List Nat) (hdr : AndroidHeader) (loki_hdr : LokiHeader)
    (sc : List Nat) : Except LokiError (HeaderOut × Nat × Nat × Nat × Nat) :=
  if hdr.page_size = 0 then
    .error .PageSizeCannotBeZero
  else
    -- Kernel tags address is invalid in old images; reconstruct the jflte
    -- default (32-bit arithmetic): kernel_addr - 0x00008000 + 0x00000100
    let tags_addr := (hdr.kernel_addr + 4294967296 - 0x00008000 + 0x00000100) % 4294967296
    match find_linux_kernel_size file hdr.page_size with
    | .error e => .error e
    | .ok kernel_size =>
      match find_gzip_offset_old file
          ((hdr.page_size + kernel_size
            + align_page_size kernel_size hdr.page_size) % 4294967296) with
      | .error e => .error e
      | .ok gzip_offset =>
        match find_ramdisk_size_old file.length hdr (gzip_offset % 4294967296) with
        | .error e => .error e
        | .ok ramdisk_size =>
          match find_ramdisk_address file hdr loki_hdr sc with
          | .error e => .error e
          | .ok ramdisk_addr =>
            let hout : HeaderOut :=
              { board_name := cString 16 hdr.name
                kernel_cmdline := cString 512 hdr.cmdline
                page_size := hdr.page_size
                kernel_address := hdr.kernel_addr
                ramdisk_address := ramdisk_addr
                secondboot_address := hdr.second_addr
                kernel_tags_address := tags_addr }
            .ok (hout, hdr.page_size, kernel_size, gzip_offset, ramdisk_size)

/-- Read the header of a new-style Loki image
(`LokiFormatReader::read_header_new`).  Returns the logical header plus
`(kernel_offset, kernel_size, ramdisk_offset, ramdisk_size, dt_offset)`. -/
def read_header_new (file : List Nat) (hdr : AndroidHeader) (loki_hdr : LokiHeader)
    (sc : List Nat) : Except LokiError (HeaderOut × Nat × Nat × Nat × Nat × Nat) :=
  if hdr.page_size = 0 then
    .error .PageSizeCannotBeZero
  else
    let fake_size := if is_lg_ramdisk_address hdr.ramdisk_addr then hdr.page_size else 0x200
    match find_ramdisk_address file hdr loki_hdr sc with
    | .error e => .error e
    | .ok ramdisk_addr =>
      let hout : HeaderOut :=
        { board_name := cString 16 hdr.name
          kernel_cmdline := cString 512 hdr.cmdline
          page_size := hdr.page_size
          kernel_address := hdr.kernel_addr
          ramdisk_address := ramdisk_addr
          secondboot_address := hdr.second_addr
          kernel_tags_address := hdr.tags_addr }
      let pos1 := hdr.page_size
      let kernel_offset := pos1
      let pos2 := pos1 + loki_hdr.orig_kernel_size
      let pos3 := pos2 + align_page_size pos2 hdr.page_size
      let ramdisk_offset := pos3
      let pos4 := pos3 + loki_hdr.orig_ramdisk_size
      let pos5 := pos4 + align_page_size pos4 hdr.page_size
      let pos6 := if hdr.dt_size ≠ 0 then pos5 + fake_size else pos5
      let dt_offset := pos6
      .ok (hout, kernel_offset, loki_hdr.orig_kernel_size,
           ramdisk_offset, loki_hdr.orig_ramdisk_size, dt_offset)

/-- Read a Loki image header and install its segment list
(`LokiFormatReader::read_header`): take the new-style path exactly when all
three recorded original values are nonzero, then install kernel and ramdisk
entries unconditionally and a device-tree entry only when
`hdr.dt_size > 0 && dt_offset != 0` (old-style leaves `dt_offset` at 0). -/
def loki_read_header (file : List Nat) (hdr : AndroidHeader) (loki_hdr : LokiHeader)
    (sc : List Nat) : Except LokiError (HeaderOut × List SegmentReaderEntry) :=
  if loki_hdr.orig_kernel_size ≠ 0 ∧ loki_hdr.orig_ramdisk_size ≠ 0
      ∧ loki_hdr.ramdisk_addr ≠ 0 then
    match read_header_new file hdr loki_hdr sc with
    | .error e => .error e
    | .ok (hout, kernel_offset, kernel_size, ramdisk_offset, ramdisk_size, dt_offset) =>
      let base : List SegmentReaderEntry :=
        [⟨.Kernel, kernel_offset, kernel_size, false⟩,
         ⟨.Ramdisk, ramdisk_offset, ramdisk_size, false⟩]
      let es :=
        if hdr.dt_size > 0 ∧ dt_offset ≠ 0 then
          base ++ [⟨.DeviceTree, dt_offset, hdr.dt_size, false⟩]
        else
          base
      .ok (hout, es)
  else
    match read_header_old file hdr loki_hdr sc with
    | .error e => .error e
    | .ok (hout, kernel_offset, kernel_size, ramdisk_offset, ramdisk_size) =>
      let dt_offset : Nat := 0
      let base : List SegmentReaderEntry :=
        [⟨.Kernel, kernel_offset, kernel_size, false⟩,
         ⟨.Ramdisk, ramdisk_offset, ramdisk_size, false⟩]
      let es :=
        if hdr.dt_size > 0 ∧ dt_offset ≠ 0 then
          base ++ [⟨.DeviceTree, dt_offset, hdr.dt_size, false⟩]
        else
          base
      .ok (hout, es)

/-- Size in bytes of the Android boot magic `"ANDROID!"`. -/
def BOOT_MAGIC_SIZE : Nat := 8

/-- Size in bytes of the Loki magic `"LOKI"`. -/
def LOKI_MAGIC_SIZE : Nat := 4

/-- Outcome of `find_loki_header` as observed by `bid`: found, failed with
an error of the Loki error category (header absent or too small), or failed
with any other (stream) error. -/
inductive LokiFindOutcome
  | found
  | lokiCategoryError
  | otherError
deriving DecidableEq, Repr

/-- Outcome of the Android `find_header` probe as observed by `bid`. -/
inductive AndroidFindOutcome
  | found
  | headerNotFound
  | headerOutOfBounds
  | otherError
deriving DecidableEq, Repr

/-- The Loki driver's bid (`LokiFormatReader::bid`): bail out with -2 when
the best bid so far already reaches the driver's own magic bits; add
`LOKI_MAGIC_SIZE * 8` bits when the Loki header is found at 0x400 (0 when
it is absent, -1 on any other error); then add `BOOT_MAGIC_SIZE * 8` bits
when the Android header is found within the Loki cap (0 when absent, -1 on
any other error). -/
def loki_bid (best_bid : Int) (lokiRes : LokiFindOutcome)
    (androidRes : AndroidFindOutcome) : Int :=
  if best_bid ≥ ((BOOT_MAGIC_SIZE + LOKI_MAGIC_SIZE) * 8 : Nat) then
    -2
  else
    match lokiRes with
    | .lokiCategoryError => 0
    | .otherError => -1
    | .found =>
      match androidRes with
      | .headerNotFound => 0
      | .headerOutOfBounds => 0
      | .otherError => -1
      | .found => ((LOKI_MAGIC_SIZE * 8 + BOOT_MAGIC_SIZE * 8 : Nat) : Int)

/-- The Android boot magic `"ANDROID!"` as bytes. -/
def BOOT_MAGIC : List Nat := [65, 78, 68, 82, 79, 73, 68, 33]

/-- Modelled from the spec: the Samsung SEAndroid trailer magic
(`SAMSUNG_SEANDROID_MAGIC`, defined in a header not under `src/`) is the
16 ASCII bytes of `"SEANDROIDENFORCE"`. -/
def SAMSUNG_SEANDROID_MAGIC : List Nat :=
  [83, 69, 65, 78, 68, 82, 79, 73, 68, 69, 78, 70, 79, 82, 67, 69]

/-- Modelled from the spec: the Bump trailer magic (`bump::BUMP_MAGIC`,
defined in `bump_defs.h`, not under `src/`), exact bytes per the spec. -/
def BUMP_MAGIC : List Nat :=
  [0x41, 0xa9, 0xe4, 0x67, 0x74, 0x4d, 0x1d, 0x1b,
   0xa4, 0x29, 0xf2, 0xec, 0xea, 0x65, 0x52, 0x79]

/-- Serialization of the in-memory Android header to its 1632-byte
little-endian on-disk form (the effect of `android_fix_header_byte_order`
followed by writing the raw struct; layout per the on-disk format: 8 magic,
ten LE32 fields, 16 name, 512 cmdline, 20 id, 1024 extra_cmdline). -/
def android_header_bytes (h : AndroidHeader) : List Nat :=
  BOOT_MAGIC
    ++ le32Bytes h.kernel_size ++ le32Bytes h.kernel_addr
    ++ le32Bytes h.ramdisk_size ++ le32Bytes h.ramdisk_addr
    ++ le32Bytes h.second_size ++ le32Bytes h.second_addr
    ++ le32Bytes h.tags_addr ++ le32Bytes h.page_size
    ++ le32Bytes h.dt_size ++ le32Bytes h.unused
    ++ fixField 16 h.name ++ fixField 512 h.cmdline
    ++ fixField 20 h.id ++ fixField 1024 h.extra_cmdline

/-- Input header handed to the writer (`Header`): each field is optional. -/
structure Header where
  kernel_address : Option Nat := none
  ramdisk_address : Option Nat := none
  secondboot_address : Option Nat := none
  kernel_tags_address : Option Nat := none
  page_size : Option Nat := none
  board_name : Option (List Nat) := none
  kernel_cmdline : Option (List Nat) := none
deriving DecidableEq, Repr

/-- The page sizes accepted by the writer's `switch` statement. -/
def allowedPageSizes : List Nat := [2048, 4096, 8192, 16384, 32768, 65536, 131072]

/-- Validate the caller's header and build the in-memory Android header
(`AndroidFormatWriter::write_header`): copy the addresses, require
`page_size` to be present and in the allowed set, then bound-check the
board name (< 16 bytes) and kernel command line (< 512 bytes). -/
def write_header (h : Header) : Except AndroidError AndroidHeader :=
  let hdr0 : AndroidHeader :=
    { kernel_addr := h.kernel_address.getD 0
      ramdisk_addr := h.ramdisk_address.getD 0
      second_addr := h.secondboot_address.getD 0
      tags_addr := h.kernel_tags_address.getD 0 }
  match h.page_size with
  | none => .error .MissingPageSize
  | some p =>
    if p = 2048 ∨ p = 4096 ∨ p = 8192 ∨ p = 16384
        ∨ p = 32768 ∨ p = 65536 ∨ p = 131072 then
      let hdr1 := { hdr0 with page_size := p }
      let afterName : Except AndroidError AndroidHeader :=
        match h.board_name with
        | none => .ok hdr1
        | some bn =>
          if bn.length ≥ 16 then .error .BoardNameTooLong
          else .ok { hdr1 with name := fixField 16 bn }
      match afterName with
      | .error e => .error e
      | .ok hdr2 =>
        match h.kernel_cmdline with
        | none => .ok hdr2
        | some cl =>
          if cl.length ≥ 512 then .error .KernelCmdlineTooLong
          else .ok { hdr2 with cmdline := fixField 512 cl }
    else
      .error .InvalidPageSize

/-- A segment slot of the segment writer (`SegmentWriterEntry`).  The
engine itself (`segment_writer.cpp`) is not under `src/`; its record shape
and behavior are modelled from the spec. -/
structure SegmentWriterEntry where
  type : EntryType
  offset : Nat
  size : Option Nat
  align : Nat
deriving DecidableEq, Repr

/-- Result codes of the writer operations (`RET_OK` / `RET_FAILED` /
`RET_FATAL`). -/
inductive WriteResult (α : Type)
  | ok (val : α)
  | failed
  | fatal
deriving DecidableEq, Repr

/-- State of the Android/Bump format writer: the in-memory header, the
running SHA-1 context (modelled as the exact list of bytes fed to it, in
order), the cached `_file_size`, the installed segment list with the
cursor (`cur = entries.length` means the cursor is at the end), the byte
counter of the current segment, and the current file offset. -/
structure AWState where
  hdr : AndroidHeader
  isBump : Bool
  shaData : List Nat
  fileSize : Option Nat
  entries : List SegmentWriterEntry
  cur : Nat
  counter : Nat
  filePos : Nat
deriving DecidableEq, Repr

/-- Writes performed on the file, as (absolute offset, bytes) pairs. -/
abbrev FileWrites := List (Nat × List Nat)

/-- Stream `buf` into the current segment
(`AndroidFormatWriter::write_data`): the segment engine (modelled from the
spec: "write_data(buffer, out_n) writes and increments the counter") writes
the bytes at the current offset, then the driver feeds every payload byte
to the SHA-1 context. -/
def write_data (st : AWState) (buf : List Nat) : WriteResult (AWState × FileWrites) :=
  if st.cur < st.entries.length then
    .ok ({ st with
            counter := st.counter + buf.length
            filePos := st.filePos + buf.length
            shaData := st.shaData ++ buf },
         [(st.filePos, buf)])
  else
    .failed

/-- Finish the current segment (`AndroidFormatWriter::finish_entry`): the
segment engine (modelled from the spec: pad with
`(page_size - counter % page_size) % page_size` zero bytes and store the
counter as the segment's authoritative size) runs first; then the driver
feeds `LE32(size)` to the SHA-1 context unless the entry is a device tree
of size 0, and records the size in the matching header field. -/
def finish_entry (st : AWState) : WriteResult (AWState × FileWrites) :=
  match st.entries.get? st.cur with
  | none => .failed
  | some e =>
    let size := st.counter
    let pad := align_page_size size e.align
    let entries2 := st.entries.set st.cur { e with size := some size }
    let shaData2 :=
      if e.type = .DeviceTree ∧ size = 0 then st.shaData
      else st.shaData ++ le32Bytes size
    let hdr2 :=
      match e.type with
      | .Kernel => { st.hdr with kernel_size := size % 4294967296 }
      | .Ramdisk => { st.hdr with ramdisk_size := size % 4294967296 }
      | .Secondboot => { st.hdr with second_size := size % 4294967296 }
      | .DeviceTree => { st.hdr with dt_size := size % 4294967296 }
    .ok ({ st with
            entries := entries2
            shaData := shaData2
            hdr := hdr2
            filePos := st.filePos + pad },
         [(st.filePos, List.replicate pad 0)])

/-- Close the writer (`AndroidFormatWriter::close`), parameterized by the
external SHA-1 digest function.  Determine the final file length (the
cached `_file_size` if present, else the current offset, which is then
cached); when the segment cursor is at the end, write the trailer magic
there (Bump magic or Samsung SEAndroid magic), finalize the SHA-1 into the
header's `id` field, convert the header to little-endian and write it at
offset 0; otherwise write nothing.  Both paths return `RET_OK`. -/
def close (sha1 : List Nat → List Nat) (st : AWState) :
    WriteResult (AWState × FileWrites) :=
  let st1 :=
    match st.fileSize with
    | some fs => { st with filePos := fs }
    | none => { st with fileSize := some st.filePos }
  if st1.cur = st1.entries.length then
    let trailer := if st1.isBump then BUMP_MAGIC else SAMSUNG_SEANDROID_MAGIC
    let hdr2 := { st1.hdr with id := fixField 20 (sha1 st1.shaData) }
    let bytes := android_header_bytes hdr2
    .ok ({ st1 with hdr := hdr2, filePos := bytes.length },
         [(st1.filePos, trailer), (0, bytes)])
  else
    .ok (st1, [])

/-- Folding the overwrite-callback over at most one reported match returns
the first match offset, or the initial value 0 when there is none. -/
theorem take_one_foldl (l : List Nat) :
    (l.take 1).foldl (fun _ o => o) 0 = l.head?.getD 0 := by
  cases l <;> rfl

/-- C9: For every Loki image whose Loki header has `ramdisk_addr == 0`, the
reconstructed ramdisk address is `hdr.kernel_addr + 0x01ff8000`, and
`find_ramdisk_address` fails with `InvalidKernelAddress` exactly when this
sum would overflow 32 bits. -/
theorem find_ramdisk_address_default_jflte (file : List Nat) (hdr : AndroidHeader)
    (loki_hdr : LokiHeader) (sc : List Nat) (h : loki_hdr.ramdisk_addr = 0) :
    (find_ramdisk_address file hdr loki_hdr sc = .error .InvalidKernelAddress
        ↔ 4294967296 ≤ hdr.kernel_addr + 0x01ff8000)
    ∧ (hdr.kernel_addr + 0x01ff8000 < 4294967296 →
        find_ramdisk_address file hdr loki_hdr sc = .ok (hdr.kernel_addr + 0x01ff8000)) := by
  unfold find_ramdisk_address
  rw [if_neg (by simp [h])]
  by_cases hk : hdr.kernel_addr > 4294967295 - 0x01ff8000
  · rw [if_pos hk]
    exact ⟨⟨fun _ => by omega, fun _ => rfl⟩, fun hlt => ((by omega : False)).elim⟩
  · rw [if_neg hk]
    refine ⟨⟨fun hcontra => by simp at hcontra, fun hge => ((by omega : False)).elim⟩,
      fun _ => rfl⟩

/-- Witness for C9 at a concrete input. -/
theorem find_ramdisk_address_default_jflte_witness :
    ({ ramdisk_addr := 0 } : LokiHeader).ramdisk_addr = 0
    ∧ (256 : Nat) + 0x01ff8000 < 4294967296
    ∧ find_ramdisk_address [] { kernel_addr := 256 } { ramdisk_addr := 0 } LOKI_SHELLCODE
        = .ok (256 + 0x01ff8000) :=
  ⟨rfl, by norm_num,
   (find_ramdisk_address_default_jflte [] { kernel_addr := 256 } { ramdisk_addr := 0 }
      LOKI_SHELLCODE rfl).2 (by norm_num)⟩

/-- C10: With a nonzero Loki-header ramdisk address, `find_ramdisk_address`
reports `ShellcodeNotFound` exactly when the search leaves the result
offset at its initial value 0: when the trimmed shellcode has no occurrence
at all, or when the (single reported) first match starts at offset 0. -/
theorem find_ramdisk_address_shellcode_not_found (file : List Nat) (hdr : AndroidHeader)
    (loki_hdr : LokiHeader) (sc : List Nat) (h : loki_hdr.ramdisk_addr ≠ 0) :
    (find_ramdisk_address file hdr loki_hdr sc = .error .ShellcodeNotFound
      ↔ (occurrences file (sc.take (sc.length - 9)) = []
         ∨ (occurrences file (sc.take (sc.length - 9))).head? = some 0)) := by
  unfold find_ramdisk_address
  rw [if_pos h]
  simp only [take_one_foldl]
  cases hocc : occurrences file (sc.take (sc.length - 9)) with
  | nil => simp
  | cons a l =>
    by_cases ha : a = 0
    · simp [ha]
    · simp only [List.head?_cons, Option.getD_some, ha, if_neg]
      cases hr : readLE32 file (a + (sc.length - 5)) <;> simp [ha]

/-- Witness for C10 at a concrete input: a file too short to contain the
trimmed shellcode at all. -/
theorem find_ramdisk_address_shellcode_not_found_witness :
    ({ ramdisk_addr := 5 } : LokiHeader).ramdisk_addr ≠ 0
    ∧ occurrences [0, 0, 0] (LOKI_SHELLCODE.take (LOKI_SHELLCODE.length - 9)) = []
    ∧ find_ramdisk_address [0, 0, 0] {} { ramdisk_addr := 5 } LOKI_SHELLCODE
        = .error .ShellcodeNotFound :=
  ⟨by decide, by rfl,
   (find_ramdisk_address_shellcode_not_found [0, 0, 0] {} { ramdisk_addr := 5 }
      LOKI_SHELLCODE (by decide)).mpr (Or.inl (by rfl))⟩

set_option maxRecDepth 1000000

/-- A file in which the 9-byte-trimmed shellcode occurs at offsets 1 and
70, with different 4-byte values at the two candidate read positions
(offsets 61 and 130). -/
def twoMatchFile : List Nat :=
  0 :: ((List.range 56).map (· + 1) ++ [0, 0, 0, 0] ++ [7, 0, 0, 0]
    ++ [0, 0, 0, 0, 0] ++ (List.range 56).map (· + 1) ++ [0, 0, 0, 0] ++ [9, 0, 0, 0])

/-- Counterexample to C1 as stated: on `twoMatchFile` the source takes the
FIRST match of the trimmed shellcode (its `file_search` call passes
`max_matches = 1`, so the callback never sees a second match) and returns
the 4 LE bytes at `first + shellcode_size - 5`, which differ from the
value at the LAST match that the claim describes. -/
theorem find_ramdisk_address_not_last_match :
    find_ramdisk_address twoMatchFile {} { ramdisk_addr := 1 } LOKI_SHELLCODE = .ok 7
    ∧ spec_ramdisk_address_last_match twoMatchFile LOKI_SHELLCODE = some 9
    ∧ (7 : Nat) ≠ 9 :=
  ⟨by rfl, by rfl, by decide⟩

/-- C1 (amended): with a nonzero Loki-header ramdisk address,
`find_ramdisk_address` takes the offset of the FIRST match of the
9-byte-trimmed shellcode (the search is capped at one match), adds
`shellcode_size - 5`, and reads 4 little-endian bytes there. -/
theorem find_ramdisk_address_first_match (file : List Nat) (hdr : AndroidHeader)
    (loki_hdr : LokiHeader) (sc : List Nat) (o v : Nat)
    (h : loki_hdr.ramdisk_addr ≠ 0)
    (ho : (occurrences file (sc.take (sc.length - 9))).head? = some o)
    (hoz : o ≠ 0)
    (hv : readLE32 file (o + (sc.length - 5)) = some v) :
    find_ramdisk_address file hdr loki_hdr sc = .ok v := by
  unfold find_ramdisk_address
  rw [if_pos h]
  simp only [take_one_foldl, ho, Option.getD_some]
  rw [if_neg hoz, hv]

/-- Witness for the amended C1 at a concrete input. -/
theorem find_ramdisk_address_first_match_witness :
    ({ ramdisk_addr := 1 } : LokiHeader).ramdisk_addr ≠ 0
    ∧ (occurrences twoMatchFile
        (LOKI_SHELLCODE.take (LOKI_SHELLCODE.length - 9))).head? = some 1
    ∧ (1 : Nat) ≠ 0
    ∧ readLE32 twoMatchFile (1 + (LOKI_SHELLCODE.length - 5)) = some 7
    ∧ find_ramdisk_address twoMatchFile {} { ramdisk_addr := 1 } LOKI_SHELLCODE = .ok 7 :=
  ⟨by decide, by rfl, by decide, by rfl,
   find_ramdisk_address_first_match twoMatchFile {} { ramdisk_addr := 1 }
     LOKI_SHELLCODE 1 7 (by decide) (by rfl) (by decide) (by rfl)⟩

/-- C4: For every old-style Loki image, the reconstructed ramdisk size is
`aboot_offset - ramdisk_offset` where `aboot_offset` is the file length
minus `page_size` for an LG ramdisk address and minus `0x200` otherwise;
`ramdisk_offset > aboot_offset` fails with
`RamdiskOffsetGreaterThanAbootOffset`, and no trailing-zero stripping is
applied to the computed size. -/
theorem find_ramdisk_size_old_spec (fileSize : Nat) (hdr : AndroidHeader) (ro : Nat)
    (hfs : abootReserved hdr ≤ fileSize)
    (hbound : fileSize - abootReserved hdr - ro < 4294967296) :
    abootReserved hdr
        = (if is_lg_ramdisk_address hdr.ramdisk_addr then hdr.page_size else 0x200)
    ∧ (ro > fileSize - abootReserved hdr →
        find_ramdisk_size_old fileSize hdr ro
          = .error .RamdiskOffsetGreaterThanAbootOffset)
    ∧ (ro ≤ fileSize - abootReserved hdr →
        find_ramdisk_size_old fileSize hdr ro
          = .ok (fileSize - abootReserved hdr - ro)) := by
  refine ⟨rfl, ?_, ?_⟩
  · intro hgt
    unfold find_ramdisk_size_old
    rw [if_neg (by omega), if_pos hgt]
  · intro hle
    unfold find_ramdisk_size_old
    rw [if_neg (by omega), if_neg (by omega)]
    exact congrArg Except.ok (Nat.mod_eq_of_lt hbound)

/-- Witness for C4 at the spec's concrete scenario: file length 0x4200,
non-LG ramdisk address, gzip offset 0x1800, ramdisk size
(0x4200 - 0x200) - 0x1800 = 0x2800. -/
theorem find_ramdisk_size_old_spec_witness :
    abootReserved { ramdisk_addr := 0 } ≤ 0x4200
    ∧ find_ramdisk_size_old 0x4200 { ramdisk_addr := 0 } 0x1800 = .ok 0x2800 := by
  refine ⟨by decide, ?_⟩
  have h := (find_ramdisk_size_old_spec 0x4200 { ramdisk_addr := 0 } 0x1800
      (by decide) (by decide)).2.2 (by decide)
  simpa [abootReserved, is_lg_ramdisk_address] using h

/-- Membership in the allowed page-size list, unfolded to the source's
`switch` cases. -/
theorem mem_allowedPageSizes_iff (p : Nat) :
    p ∈ allowedPageSizes ↔ (p = 2048 ∨ p = 4096 ∨ p = 8192 ∨ p = 16384
      ∨ p = 32768 ∨ p = 65536 ∨ p = 131072) := by
  simp [allowedPageSizes]

/-- C8: `write_header` fails with `MissingPageSize` when `page_size` is
unset, with `InvalidPageSize` when it is set to a value outside the allowed
set {2048, 4096, 8192, 16384, 32768, 65536, 131072}, and for values in the
set the page-size validation never produces either error. -/
theorem write_header_page_size_check (h : Header) :
    (h.page_size = none → write_header h = .error .MissingPageSize)
    ∧ (∀ p, h.page_size = some p →
        (p ∉ allowedPageSizes → write_header h = .error .InvalidPageSize)
        ∧ (p ∈ allowedPageSizes →
            write_header h ≠ .error .MissingPageSize
            ∧ write_header h ≠ .error .InvalidPageSize)) := by
  constructor
  · intro hp
    simp only [write_header, hp]
  · intro p hp
    constructor
    · intro hnot
      simp only [write_header, hp]
      rw [if_neg (by simp only [← mem_allowedPageSizes_iff]; exact hnot)]
    · intro hmem
      simp only [write_header, hp]
      rw [if_pos ((mem_allowedPageSizes_iff p).mp hmem)]
      rcases hbn : h.board_name with _ | bn
      · rcases hcl : h.kernel_cmdline with _ | cl
        · simp
        · by_cases hlen : cl.length ≥ 512 <;> simp [hlen]
      · by_cases hbl : bn.length ≥ 16
        · simp [hbl]
        · rcases hcl : h.kernel_cmdline with _ | cl
          · simp [hbl]
          · by_cases hlen : cl.length ≥ 512 <;> simp [hbl, hlen]

/-- Witness for C8 at a concrete input: page size 512 is rejected as
invalid. -/
theorem write_header_page_size_check_witness :
    ({ page_size := some 512 } : Header).page_size = some 512
    ∧ (512 : Nat) ∉ allowedPageSizes
    ∧ write_header { page_size := some 512 } = .error .InvalidPageSize :=
  ⟨rfl, by decide,
   ((write_header_page_size_check { page_size := some 512 }).2 512 rfl).1 (by decide)⟩

/-- C7: The Loki driver's bid returns -2 when `best_bid` already reaches
`8 * (android_magic_size + loki_magic_size)` bits; otherwise it returns the
full `8 * (android_magic_size + loki_magic_size)` when both magics are
found, 0 when either probe fails with its recoverable not-found error, and
-1 when a probe fails with any other error. -/
theorem loki_bid_spec (best : Int) (l : LokiFindOutcome) (a : AndroidFindOutcome) :
    (best ≥ 8 * ((BOOT_MAGIC_SIZE : Int) + LOKI_MAGIC_SIZE) →
      loki_bid best l a = -2)
    ∧ (best < 8 * ((BOOT_MAGIC_SIZE : Int) + LOKI_MAGIC_SIZE) →
        ((l = .found ∧ a = .found) →
          loki_bid best l a = 8 * ((BOOT_MAGIC_SIZE : Int) + LOKI_MAGIC_SIZE))
        ∧ ((l = .lokiCategoryError
            ∨ (l = .found ∧ (a = .headerNotFound ∨ a = .headerOutOfBounds))) →
          loki_bid best l a = 0)
        ∧ ((l = .otherError ∨ (l = .found ∧ a = .otherError)) →
          loki_bid best l a = -1)) := by
  have h96 : (((BOOT_MAGIC_SIZE + LOKI_MAGIC_SIZE) * 8 : Nat) : Int)
      = 8 * ((BOOT_MAGIC_SIZE : Int) + LOKI_MAGIC_SIZE) := by
    decide
  by_cases hbest : best ≥ 8 * ((BOOT_MAGIC_SIZE : Int) + LOKI_MAGIC_SIZE)
  · refine ⟨fun _ => ?_, fun hlt => absurd hbest (not_le.mpr hlt)⟩
    unfold loki_bid
    rw [if_pos (by rw [h96]; exact hbest)]
  · refine ⟨fun hge => absurd hge hbest, fun _ => ?_⟩
    have hcond : ¬(best ≥ (((BOOT_MAGIC_SIZE + LOKI_MAGIC_SIZE) * 8 : Nat) : Int)) := by
      rw [h96]; exact hbest
    refine ⟨?_, ?_, ?_⟩
    · rintro ⟨hl, ha⟩
      subst hl; subst ha
      unfold loki_bid
      rw [if_neg hcond]
      decide
    · rintro (hl | ⟨hl, ha | ha⟩) <;> subst hl <;> try subst ha
      all_goals unfold loki_bid; rw [if_neg hcond]
    · rintro (hl | ⟨hl, ha⟩) <;> subst hl <;> try subst ha
      all_goals unfold loki_bid; rw [if_neg hcond]

/-- Witness for C7 at concrete inputs: with no prior bid and both magics
found, the Loki driver bids 96 bits. -/
theorem loki_bid_spec_witness :
    (0 : Int) < 8 * ((BOOT_MAGIC_SIZE : Int) + LOKI_MAGIC_SIZE)
    ∧ loki_bid 0 .found .found = 8 * ((BOOT_MAGIC_SIZE : Int) + LOKI_MAGIC_SIZE) :=
  ⟨by decide,
   ((loki_bid_spec 0 .found .found).2 (by decide)).1 ⟨rfl, rfl⟩⟩

/-- C2: Every payload byte passed to `write_data` is fed to the SHA-1
context, and `finish_entry` additionally feeds the LE32 segment size unless
the finished entry is a device tree of size 0 — in particular the LE32 size
of a zero-sized kernel, ramdisk or secondboot segment is still hashed. -/
theorem android_writer_sha1_feeding (st : AWState) (buf : List Nat)
    (e : SegmentWriterEntry) (he : st.entries.get? st.cur = some e) :
    (∃ st2 w, write_data st buf = .ok (st2, w) ∧ st2.shaData = st.shaData ++ buf)
    ∧ (∃ st2 w, finish_entry st = .ok (st2, w)
        ∧ st2.shaData = st.shaData
            ++ (if e.type = .DeviceTree ∧ st.counter = 0 then []
                else le32Bytes st.counter)
        ∧ (e.type ≠ .DeviceTree →
            st2.shaData = st.shaData ++ le32Bytes st.counter)) := by
  have hlt : st.cur < st.entries.length := by
    rcases Nat.lt_or_ge st.cur st.entries.length with h' | h'
    · exact h'
    · rw [List.get?_eq_none.mpr h'] at he
      exact absurd he (by simp)
  constructor
  · unfold write_data
    rw [if_pos hlt]
    exact ⟨_, _, rfl, by simp⟩
  · simp only [finish_entry, he]
    refine ⟨_, _, rfl, ?_, ?_⟩
    · by_cases hdt : e.type = .DeviceTree ∧ st.counter = 0 <;> simp [hdt]
    · intro hne
      simp [hne]

/-- A concrete writer state about to finish a kernel segment with zero
bytes written. -/
def zeroKernelState : AWState :=
  { hdr := {}
    isBump := false
    shaData := [10, 11]
    fileSize := none
    entries := [⟨.Kernel, 0, none, 2048⟩]
    cur := 0
    counter := 0
    filePos := 2048 }

/-- Witness for C2 at a concrete input: a kernel segment with zero bytes
written still gets its LE32 size (four zero bytes) hashed, and `write_data`
hashes its payload. -/
theorem android_writer_sha1_feeding_witness :
    zeroKernelState.entries.get? zeroKernelState.cur = some ⟨.Kernel, 0, none, 2048⟩
    ∧ ((∃ st2 w, write_data zeroKernelState [1, 2, 3] = .ok (st2, w)
          ∧ st2.shaData = zeroKernelState.shaData ++ [1, 2, 3])
      ∧ (∃ st2 w, finish_entry zeroKernelState = .ok (st2, w)
          ∧ st2.shaData = zeroKernelState.shaData
              ++ (if (EntryType.Kernel = .DeviceTree ∧ zeroKernelState.counter = 0)
                  then [] else le32Bytes zeroKernelState.counter)
          ∧ (EntryType.Kernel ≠ .DeviceTree →
              st2.shaData = zeroKernelState.shaData
                ++ le32Bytes zeroKernelState.counter))) :=
  ⟨rfl, android_writer_sha1_feeding zeroKernelState [1, 2, 3]
    ⟨.Kernel, 0, none, 2048⟩ rfl⟩

/-- C3: `close` determines the final file length (the cached `_file_size`
if present, else the current offset, which is then cached) and — when the
segment cursor is at the end — writes the 16-byte trailer magic (BUMP magic
for Bump, `"SEANDROIDENFORCE"` for Android) at that length, finalizes the
SHA-1 digest into the header's `id` field, and only then writes the
little-endian header at offset 0; when the cursor is not at the end it
writes neither trailer nor header and still returns success. -/
theorem android_writer_close_spec (sha1 : List Nat → List Nat) (st : AWState) :
    (st.cur = st.entries.length →
      ∃ st2, close sha1 st = .ok (st2,
          [(st.fileSize.getD st.filePos,
            if st.isBump then BUMP_MAGIC else SAMSUNG_SEANDROID_MAGIC),
           (0, android_header_bytes
              { st.hdr with id := fixField 20 (sha1 st.shaData) })])
        ∧ (if st.isBump then BUMP_MAGIC else SAMSUNG_SEANDROID_MAGIC).length = 16
        ∧ st2.fileSize = some (st.fileSize.getD st.filePos))
    ∧ (st.cur ≠ st.entries.length →
      ∃ st2, close sha1 st = .ok (st2, []) ∧ st2.hdr = st.hdr
        ∧ st2.fileSize = some (st.fileSize.getD st.filePos)) := by
  have hlen : (if st.isBump then BUMP_MAGIC else SAMSUNG_SEANDROID_MAGIC).length = 16 := by
    cases hb : st.isBump <;> simp [BUMP_MAGIC, SAMSUNG_SEANDROID_MAGIC]
  constructor
  · intro hcur
    cases hfs : st.fileSize with
    | none =>
      refine ⟨{ st with
          fileSize := some st.filePos
          hdr := { st.hdr with id := fixField 20 (sha1 st.shaData) }
          filePos := (android_header_bytes
            { st.hdr with id := fixField 20 (sha1 st.shaData) }).length },
        ?_, hlen, by simp⟩
      simp only [close, hfs]
      rw [if_pos hcur]
      simp
    | some fs =>
      refine ⟨{ st with
          hdr := { st.hdr with id := fixField 20 (sha1 st.shaData) }
          filePos := (android_header_bytes
            { st.hdr with id := fixField 20 (sha1 st.shaData) }).length },
        ?_, hlen, by simp [hfs]⟩
      simp only [close, hfs]
      rw [if_pos hcur]
      simp
  · intro hcur
    cases hfs : st.fileSize with
    | none =>
      refine ⟨{ st with fileSize := some st.filePos }, ?_, rfl, by simp⟩
      simp only [close, hfs]
      rw [if_neg hcur]
    | some fs =>
      refine ⟨{ st with filePos := fs }, ?_, rfl, by simp [hfs]⟩
      simp only [close, hfs]
      rw [if_neg hcur]

/-- A concrete Android (non-Bump) writer state whose segment cursor is at
the end, with no cached file size and current offset 6144. -/
def doneWriterState : AWState :=
  { hdr := {}
    isBump := false
    shaData := [5, 6]
    fileSize := none
    entries := []
    cur := 0
    counter := 0
    filePos := 6144 }

/-- Witness for C3 at a concrete input. -/
theorem android_writer_close_spec_witness :
    doneWriterState.cur = doneWriterState.entries.length
    ∧ ∃ st2, close (fun _ => List.replicate 20 3) doneWriterState
      = .ok (st2,
          [(doneWriterState.fileSize.getD doneWriterState.filePos,
            if doneWriterState.isBump then BUMP_MAGIC else SAMSUNG_SEANDROID_MAGIC),
           (0, android_header_bytes
              { doneWriterState.hdr with
                  id := fixField 20 ((fun _ => List.replicate 20 3)
                    doneWriterState.shaData) })]) := by
  refine ⟨rfl, ?_⟩
  obtain ⟨st2, hcl, -, -⟩ :=
    (android_writer_close_spec (fun _ => List.replicate 20 3) doneWriterState).1 rfl
  exact ⟨st2, hcl⟩

/-- Once the scan has recorded a flags-0x08 match, it is never
overwritten. -/
theorem gzip_scan_flag8_some (file : List Nat) : ∀ (ms : List Nat) (r : GzSearchResult)
    (x : Nat), r.flag8_offset = some x → (gzip_scan file ms r).flag8_offset = some x := by
  intro ms
  induction ms with
  | nil => intro r x h8; simpa [gzip_scan] using h8
  | cons o rest ih =>
    intro r x h8
    by_cases hstop : r.flag0_offset.isSome ∧ r.flag8_offset.isSome
    · simp only [gzip_scan]
      rw [if_pos hstop]
      exact h8
    · cases hg : file[o + 3]? with
      | none =>
        simp only [gzip_scan, hg]
        rw [if_neg hstop]
        exact h8
      | some flags =>
        simp only [gzip_scan, hg]
        rw [if_neg hstop]
        by_cases h1 : r.flag0_offset.isNone ∧ flags = 0x00
        · rw [if_pos h1]; exact ih _ x h8
        · rw [if_neg h1]
          have h2 : ¬(r.flag8_offset.isNone ∧ flags = 0x08) := by simp [h8]
          rw [if_neg h2]
          exact ih _ x h8

/-- Once the scan has recorded a flags-0x00 match, it is never
overwritten. -/
theorem gzip_scan_flag0_some (file : List Nat) : ∀ (ms : List Nat) (r : GzSearchResult)
    (x : Nat), r.flag0_offset = some x → (gzip_scan file ms r).flag0_offset = some x := by
  intro ms
  induction ms with
  | nil => intro r x h0; simpa [gzip_scan] using h0
  | cons o rest ih =>
    intro r x h0
    by_cases hstop : r.flag0_offset.isSome ∧ r.flag8_offset.isSome
    · simp only [gzip_scan]
      rw [if_pos hstop]
      exact h0
    · cases hg : file[o + 3]? with
      | none =>
        simp only [gzip_scan, hg]
        rw [if_neg hstop]
        exact h0
      | some flags =>
        simp only [gzip_scan, hg]
        rw [if_neg hstop]
        have h1 : ¬(r.flag0_offset.isNone ∧ flags = 0x00) := by simp [h0]
        rw [if_neg h1]
        by_cases h2 : r.flag8_offset.isNone ∧ flags = 0x08
        · rw [if_pos h2]; exact ih _ x h0
        · rw [if_neg h2]; exact ih _ x h0

/-- The scan's recorded flags-0x08 offset is the first match whose flags
byte is 0x08, provided the match offsets are strictly increasing. -/
theorem gzip_scan_flag8_none (file : List Nat) : ∀ (ms : List Nat) (r : GzSearchResult),
    List.Pairwise (· < ·) ms → r.flag8_offset = none →
    (gzip_scan file ms r).flag8_offset
      = (ms.filter (fun o => file[o + 3]? == some 0x08)).head? := by
  intro ms
  induction ms with
  | nil => intro r hp h8; simpa [gzip_scan] using h8
  | cons o rest ih =>
    intro r hp h8
    have hstop : ¬(r.flag0_offset.isSome ∧ r.flag8_offset.isSome) := by simp [h8]
    cases hg : file[o + 3]? with
    | none =>
      have hrest : rest.filter (fun o2 => file[o2 + 3]? == some 0x08) = [] := by
        apply List.filter_eq_nil_iff.mpr
        intro a ha
        have hoa : o < a := (List.pairwise_cons.mp hp).1 a ha
        have hnone : file[a + 3]? = none := by
          rw [List.getElem?_eq_none_iff] at hg ⊢
          omega
        simp [hnone]
      simp only [gzip_scan, hg]
      rw [if_neg hstop, List.filter_cons]
      simp [hg, hrest, h8]
    | some flags =>
      simp only [gzip_scan, hg]
      rw [if_neg hstop]
      by_cases h1 : r.flag0_offset.isNone ∧ flags = 0x00
      · rw [if_pos h1]
        rw [ih { r with flag0_offset := some o } (List.pairwise_cons.mp hp).2 h8]
        rw [List.filter_cons]
        simp [hg, h1.2]
      · rw [if_neg h1]
        by_cases h2 : r.flag8_offset.isNone ∧ flags = 0x08
        · rw [if_pos h2]
          rw [gzip_scan_flag8_some file rest _ o rfl]
          rw [List.filter_cons]
          simp [hg, h2.2]
        · rw [if_neg h2]
          rw [ih _ (List.pairwise_cons.mp hp).2 h8]
          have hf8 : flags ≠ 0x08 := fun hc => h2 ⟨by simp [h8], hc⟩
          rw [List.filter_cons]
          simp [hg, hf8]

/-- The scan's recorded flags-0x00 offset is the first match whose flags
byte is 0x00, provided the match offsets are strictly increasing. -/
theorem gzip_scan_flag0_none (file : List Nat) : ∀ (ms : List Nat) (r : GzSearchResult),
    List.Pairwise (· < ·) ms → r.flag0_offset = none →
    (gzip_scan file ms r).flag0_offset
      = (ms.filter (fun o => file[o + 3]? == some 0x00)).head? := by
  intro ms
  induction ms with
  | nil => intro r hp h0; simpa [gzip_scan] using h0
  | cons o rest ih =>
    intro r hp h0
    have hstop : ¬(r.flag0_offset.isSome ∧ r.flag8_offset.isSome) := by simp [h0]
    cases hg : file[o + 3]? with
    | none =>
      have hrest : rest.filter (fun o2 => file[o2 + 3]? == some 0x00) = [] := by
        apply List.filter_eq_nil_iff.mpr
        intro a ha
        have hoa : o < a := (List.pairwise_cons.mp hp).1 a ha
        have hnone : file[a + 3]? = none := by
          rw [List.getElem?_eq_none_iff] at hg ⊢
          omega
        simp [hnone]
      simp only [gzip_scan, hg]
      rw [if_neg hstop, List.filter_cons]
      simp [hg, hrest, h0]
    | some flags =>
      simp only [gzip_scan, hg]
      rw [if_neg hstop]
      by_cases h1 : r.flag0_offset.isNone ∧ flags = 0x00
      · rw [if_pos h1]
        rw [gzip_scan_flag0_some file rest _ o rfl]
        rw [List.filter_cons]
        simp [hg, h1.2]
      · rw [if_neg h1]
        have hf0 : flags ≠ 0x00 := fun hc => h1 ⟨by simp [h0], hc⟩
        by_cases h2 : r.flag8_offset.isNone ∧ flags = 0x08
        · rw [if_pos h2]
          rw [ih { r with flag8_offset := some o } (List.pairwise_cons.mp hp).2 h0]
          rw [List.filter_cons]
          simp [hg, hf0]
        · rw [if_neg h2]
          rw [ih _ (List.pairwise_cons.mp hp).2 h0]
          rw [List.filter_cons]
          simp [hg, hf0]

/-- C5: The old-style gzip-offset scan returns the first match (at or after
the start offset) whose flags byte is 0x08 when one exists, otherwise the
first whose flags byte is 0x00, and fails with `NoRamdiskGzipHeaderFound`
when neither exists. -/
theorem find_gzip_offset_old_spec (file : List Nat) (start : Nat) :
    find_gzip_offset_old file start =
      (match firstMatchWithFlag file start 0x08 with
       | some o => .ok o
       | none =>
         match firstMatchWithFlag file start 0x00 with
         | some o => .ok o
         | none => .error .NoRamdiskGzipHeaderFound) := by
  have hpair : List.Pairwise (· < ·) (matchesFrom file start gzip_deflate_magic) := by
    unfold matchesFrom occurrences
    exact ((List.pairwise_lt_range file.length).filter _).filter _
  simp only [find_gzip_offset_old, firstMatchWithFlag]
  rw [gzip_scan_flag8_none file _ _ hpair rfl, gzip_scan_flag0_none file _ _ hpair rfl]

/-- In a successfully parsed new-style image the computed device-tree
offset is never 0: it is at least one (nonzero) page. -/
theorem read_header_new_dt_offset_ne_zero (file : List Nat) (hdr : AndroidHeader)
    (loki_hdr : LokiHeader) (sc : List Nat) (hout : HeaderOut) (ko ks ro rs dto : Nat)
    (h : read_header_new file hdr loki_hdr sc = .ok (hout, ko, ks, ro, rs, dto)) :
    dto ≠ 0 := by
  by_cases hp : hdr.page_size = 0
  · rw [read_header_new, if_pos hp] at h
    simp at h
  · rw [read_header_new, if_neg hp] at h
    cases hra : find_ramdisk_address file hdr loki_hdr sc with
    | error e =>
      rw [hra] at h
      simp at h
    | ok ra =>
      rw [hra] at h
      simp only [Except.ok.injEq, Prod.mk.injEq] at h
      obtain ⟨-, -, -, -, -, hdto⟩ := h
      generalize ha1 : align_page_size (hdr.page_size + loki_hdr.orig_kernel_size)
          hdr.page_size = a1 at hdto
      generalize ha2 : align_page_size (hdr.page_size + loki_hdr.orig_kernel_size + a1
          + loki_hdr.orig_ramdisk_size) hdr.page_size = a2 at hdto
      split at hdto <;> omega

/-- C6: `read_header` takes the new-style path exactly when all three Loki
fields `orig_kernel_size`, `orig_ramdisk_size` and `ramdisk_addr` are
nonzero; the installed segment list always starts with a kernel and a
ramdisk entry, and contains a device-tree entry exactly for new-style
images with `hdr.dt_size > 0` (never for old-style images). -/
theorem loki_read_header_segments (file : List Nat) (hdr : AndroidHeader)
    (loki_hdr : LokiHeader) (sc : List Nat) (hout : HeaderOut)
    (es : List SegmentReaderEntry)
    (h : loki_read_header file hdr loki_hdr sc = .ok (hout, es)) :
    (∃ ko ks ro rs rest, es
        = ⟨.Kernel, ko, ks, false⟩ :: ⟨.Ramdisk, ro, rs, false⟩ :: rest)
    ∧ ((∃ e ∈ es, e.type = .DeviceTree) ↔
        ((loki_hdr.orig_kernel_size ≠ 0 ∧ loki_hdr.orig_ramdisk_size ≠ 0
          ∧ loki_hdr.ramdisk_addr ≠ 0) ∧ hdr.dt_size > 0)) := by
  by_cases hnew : loki_hdr.orig_kernel_size ≠ 0 ∧ loki_hdr.orig_ramdisk_size ≠ 0
      ∧ loki_hdr.ramdisk_addr ≠ 0
  · rw [loki_read_header, if_pos hnew] at h
    cases hrn : read_header_new file hdr loki_hdr sc with
    | error e =>
      rw [hrn] at h
      simp at h
    | ok tup =>
      obtain ⟨hout2, ko, ks, ro, rs, dto⟩ := tup
      have hdto := read_header_new_dt_offset_ne_zero file hdr loki_hdr sc
        hout2 ko ks ro rs dto hrn
      rw [hrn] at h
      simp only [Except.ok.injEq, Prod.mk.injEq] at h
      obtain ⟨-, hes⟩ := h
      by_cases hdt : hdr.dt_size > 0 ∧ dto ≠ 0
      · rw [if_pos hdt] at hes
        subst hes
        refine ⟨⟨ko, ks, ro, rs, _, rfl⟩, ?_⟩
        refine iff_of_true ⟨⟨.DeviceTree, dto, hdr.dt_size, false⟩, by simp, rfl⟩
          ⟨hnew, hdt.1⟩
      · rw [if_neg hdt] at hes
        subst hes
        refine ⟨⟨ko, ks, ro, rs, [], rfl⟩, ?_⟩
        refine iff_of_false ?_ ?_
        · rintro ⟨e, he, hty⟩
          simp only [List.mem_cons, List.not_mem_nil, or_false] at he
          rcases he with rfl | rfl <;> simp at hty
        · rintro ⟨-, hgt⟩
          exact hdt ⟨hgt, hdto⟩
  · rw [loki_read_header, if_neg hnew] at h
    cases hro : read_header_old file hdr loki_hdr sc with
    | error e =>
      rw [hro] at h
      simp at h
    | ok tup =>
      obtain ⟨hout2, ko, ks, ro, rs⟩ := tup
      rw [hro] at h
      simp only [gt_iff_lt, ne_eq, not_true_eq_false, and_false, if_false,
        Except.ok.injEq, Prod.mk.injEq] at h
      obtain ⟨-, hes⟩ := h
      subst hes
      refine ⟨⟨ko, ks, ro, rs, [], rfl⟩, ?_⟩
      refine iff_of_false ?_ ?_
      · rintro ⟨e, he, hty⟩
        simp only [List.mem_cons, List.not_mem_nil, or_false] at he
        rcases he with rfl | rfl <;> simp at hty
      · rintro ⟨hn, -⟩
        exact hnew hn

/-- A concrete new-style Loki image: the trimmed shellcode occurs at
offset 1 and the patched ramdisk address bytes `[2, 0, 0, 0]` sit at
offset 61. -/
def newStyleFile : List Nat :=
  0 :: ((List.range 56).map (· + 1) ++ [0, 0, 0, 0] ++ [2, 0, 0, 0])

/-- Android header of the concrete new-style image. -/
def newStyleHdr : AndroidHeader := { page_size := 4, kernel_addr := 256 }

/-- Loki header of the concrete new-style image (all three discriminator
fields nonzero). -/
def newStyleLoki : LokiHeader :=
  { orig_kernel_size := 7, orig_ramdisk_size := 5, ramdisk_addr := 1 }

/-- Expected segment list of the concrete new-style image. -/
def newStyleEntries : List SegmentReaderEntry :=
  [⟨.Kernel, 4, 7, false⟩, ⟨.Ramdisk, 12, 5, false⟩]

/-- Expected logical header of the concrete new-style image. -/
def newStyleHout : HeaderOut :=
  { page_size := 4, kernel_address := 256, ramdisk_address := 2 }

/-- Witness for C6 at the concrete new-style image. -/
theorem loki_read_header_segments_witness :
    loki_read_header newStyleFile newStyleHdr newStyleLoki LOKI_SHELLCODE
      = .ok (newStyleHout, newStyleEntries)
    ∧ (∃ ko ks ro rs rest, newStyleEntries
        = ⟨.Kernel, ko, ks, false⟩ :: ⟨.Ramdisk, ro, rs, false⟩ :: rest)
    ∧ ((∃ e ∈ newStyleEntries, e.type = .DeviceTree) ↔
        ((newStyleLoki.orig_kernel_size ≠ 0 ∧ newStyleLoki.orig_ramdisk_size ≠ 0
          ∧ newStyleLoki.ramdisk_addr ≠ 0) ∧ newStyleHdr.dt_size > 0)) := by
  have h : loki_read_header newStyleFile newStyleHdr newStyleLoki LOKI_SHELLCODE
      = .ok (newStyleHout, newStyleEntries) := by rfl
  exact ⟨h, loki_read_header_segments newStyleFile newStyleHdr newStyleLoki
    LOKI_SHELLCODE newStyleHout newStyleEntries h⟩
